import Mathlib

/-!
Shallow embedding of the vulnerability-graph core of the repository:
`src/lib/graph/build-graph.ts`, `src/lib/graph/ingest-findings.ts`,
`src/lib/agents/graph-agent.ts` and the agent runtime, together with
theorems settling the specification claims about them.

JavaScript values that may be `undefined` at runtime are modelled as
`Option`; JavaScript property bags are modelled as insertion-ordered
association lists of `String × PropVal`.
-/

namespace VulnGraph

/-- A JavaScript property value as it occurs in the property bags of this
codebase: a string, an integer (all numeric properties in the core are
integral), a boolean, JSON `null`, or `undefined`. -/
inductive PropVal where
  | str (s : String)
  | int (n : Int)
  | bool (b : Bool)
  | null
  | undef
deriving DecidableEq, Repr

/-- A JavaScript object used as a property bag: an association list whose
keys are unique by construction (`setProp` replaces in place, as assignment
to an existing key does). -/
abbrev Props := List (String × PropVal)

/-- Assignment `obj[k] = v`: replaces the value at `k` in place if the key
exists, otherwise appends the key (JS objects keep insertion order). -/
def setProp (props : Props) (k : String) (v : PropVal) : Props :=
  if props.any (fun p => p.1 = k) then
    props.map (fun p => if p.1 = k then (k, v) else p)
  else
    props ++ [(k, v)]

/-- Property read `obj[k]`: `none` models `undefined` for an absent key. -/
def getProp (props : Props) (k : String) : Option PropVal :=
  (props.find? (fun p => p.1 = k)).map (fun p => p.2)

/-- Whether a property read is nullish (`undefined` or `null`), the
condition the `??` operator tests. -/
def isNullish : Option PropVal → Bool
  | none => true
  | some .null => true
  | some .undef => true
  | some _ => false

/-- `obj[k] = obj[k] ?? v`: writes the default only when the current value
is nullish. -/
def coalesceProp (props : Props) (k : String) (v : PropVal) : Props :=
  if isNullish (getProp props k) then setProp props k v else props

/-- JS truthiness of an optional string: `undefined` and `""` are falsy. -/
def isTruthy : Option String → Bool
  | none => false
  | some s => !s.isEmpty

/-- String coercion of a possibly-`undefined` string, as a JS template
literal performs it: `undefined` prints as "undefined". -/
def jsStr : Option String → String
  | none => "undefined"
  | some s => s

/-- An optional string rendered as a property value (`undefined` when the
field is absent). -/
def optVal : Option String → PropVal
  | none => .undef
  | some s => .str s

/-- The nested vulnerability descriptor of a finding. The TypeScript type
declares `owasp_id` and `cwe_id` as required, but findings cross an
unchecked `JSON.parse(...) as FindingRecord[]` boundary, so every
identifier may be absent at runtime and is modelled as `Option String`. -/
structure Vulnerability where
  owasp_id : Option String
  cwe_id : Option String
  cve_id : Option String
  title : String
  severity : String
  description : String
  vector : String
deriving DecidableEq, Repr

/-- The nested asset descriptor of a finding. -/
structure AssetDescriptor where
  type : String
  url : Option String
  path : Option String
  image : Option String
  registry : Option String
  service : Option String
  cluster : Option String
  repo : Option String
deriving DecidableEq, Repr

/-- The optional package descriptor of a finding. -/
structure PackageDescriptor where
  ecosystem : String
  name : String
  version : String
deriving DecidableEq, Repr

/-- One scanner finding (`FindingRecord` in `lib/models/finding`). -/
structure FindingRecord where
  finding_id : String
  scanner : String
  scan_id : String
  timestamp : String
  vulnerability : Vulnerability
  asset : AssetDescriptor
  package : Option PackageDescriptor
deriving DecidableEq, Repr

/-- A graph node: `id` is declared `string` but flows from possibly-absent
vulnerability identifiers, so it is modelled as `Option String`
(`none` = `undefined`). -/
structure GraphNode where
  label : String
  id : Option String
  properties : Props
deriving DecidableEq, Repr

/-- An edge endpoint reference (the `{label, id}` pairs of `GraphEdge`). -/
structure EdgeRef where
  label : String
  id : Option String
deriving DecidableEq, Repr

/-- A graph edge (`GraphEdge` in `lib/models/finding`); `fromRef`/`toRef`
embed the `from`/`to` fields (`from` is a reserved word in Lean). -/
structure GraphEdge where
  type : String
  fromRef : EdgeRef
  toRef : EdgeRef
  properties : Option Props
  rationale : Option String
deriving DecidableEq, Repr

/-- `createEdge` of build-graph.ts: edge from two nodes, no properties. -/
def createEdge (type : String) (a b : GraphNode) (properties : Option Props := none) : GraphEdge :=
  { type := type
    fromRef := { label := a.label, id := a.id }
    toRef := { label := b.label, id := b.id }
    properties := properties
    rationale := none }

/-- `deriveAssetId` of build-graph.ts: id priority image → url → path →
type/service fallback; the guards are JS truthiness tests, the final
`service ?? "unknown"` is nullish coalescing. -/
def deriveAssetId (f : FindingRecord) : String :=
  if isTruthy f.asset.image then "image:" ++ jsStr f.asset.image
  else if isTruthy f.asset.url then jsStr f.asset.url
  else if isTruthy f.asset.path then "file:" ++ jsStr f.asset.path
  else f.asset.type ++ ":" ++ f.asset.service.getD "unknown"

/-- The node map of `buildGraphPayload`: a `Map<string, GraphNode>` keyed by
the template-literal composite `label:id`, in insertion order. -/
abbrev NodeMap := List (String × GraphNode)

/-- The composite key `` `${node.label}:${node.id}` `` of `ensureNode`. -/
def compositeId (label : String) (id : Option String) : String :=
  label ++ ":" ++ jsStr id

/-- `ensureNode` of build-graph.ts: first occurrence inserts the node; a
later occurrence shallow-merges the new properties over the existing ones
and returns the (updated) existing node. -/
def ensureNode (map : NodeMap) (node : GraphNode) : NodeMap × GraphNode :=
  let key := compositeId node.label node.id
  match map.find? (fun p => p.1 = key) with
  | none => (map ++ [(key, node)], node)
  | some (_, existing) =>
    let updated : GraphNode :=
      { existing with
        properties := node.properties.foldl (fun ps kv => setProp ps kv.1 kv.2) existing.properties }
    (map.map (fun p => if p.1 = key then (key, updated) else p), updated)

/-- The Finding node literal of `buildGraphPayload`. -/
def findingNodeOf (f : FindingRecord) : GraphNode :=
  { label := "Finding", id := some f.finding_id
    properties :=
      [("scanner", .str f.scanner), ("scan_id", .str f.scan_id),
       ("timestamp", .str f.timestamp), ("severity", .str f.vulnerability.severity),
       ("title", .str f.vulnerability.title), ("vector", .str f.vulnerability.vector)] }

/-- The Scan node literal. -/
def scanNodeOf (f : FindingRecord) : GraphNode :=
  { label := "Scan", id := some f.scan_id
    properties := [("scanner", .str f.scanner), ("occurred_at", .str f.timestamp)] }

/-- The Scanner node literal. -/
def scannerNodeOf (f : FindingRecord) : GraphNode :=
  { label := "Scanner", id := some f.scanner
    properties := [("name", .str f.scanner)] }

/-- The vulnerability id `cve_id ?? cwe_id ?? owasp_id` — there is no
further fallback, so it is `undefined` when all three are absent. -/
def vulnerabilityIdOf (f : FindingRecord) : Option String :=
  f.vulnerability.cve_id <|> f.vulnerability.cwe_id <|> f.vulnerability.owasp_id

/-- The Vulnerability node literal. -/
def vulnerabilityNodeOf (f : FindingRecord) : GraphNode :=
  { label := "Vulnerability", id := vulnerabilityIdOf f
    properties :=
      [("cve_id", optVal f.vulnerability.cve_id), ("cwe_id", optVal f.vulnerability.cwe_id),
       ("owasp_id", optVal f.vulnerability.owasp_id),
       ("severity", .str f.vulnerability.severity), ("title", .str f.vulnerability.title),
       ("description", .str f.vulnerability.description),
       ("vector", .str f.vulnerability.vector)] }

/-- The Asset node literal. -/
def assetNodeOf (f : FindingRecord) : GraphNode :=
  { label := "Asset", id := some (deriveAssetId f)
    properties :=
      [("type", .str f.asset.type), ("url", optVal f.asset.url),
       ("path", optVal f.asset.path), ("image", optVal f.asset.image),
       ("registry", optVal f.asset.registry), ("service", optVal f.asset.service),
       ("cluster", optVal f.asset.cluster)] }

/-- One conditional block of `buildGraphPayload`
(`if (field) { ensureNode(...); edges.push(...) }`): when the guard is
truthy, upsert the node and append the edges built from the returned node;
otherwise leave the state unchanged. -/
def condNodeEdges (cond : Bool) (node : GraphNode) (mk : GraphNode → List GraphEdge)
    (prev : NodeMap × List GraphEdge) : NodeMap × List GraphEdge :=
  if cond then
    let r := ensureNode prev.1 node
    (r.1, prev.2 ++ mk r.2)
  else prev

/-- The per-finding node-and-edge construction of `buildGraphPayload`,
threading the node map and appending this finding's edges. `ensureNode`
results are consumed through `.1`/`.2` projections; the node returned by
each `ensureNode` call is what the subsequent `createEdge` calls use. -/
def buildFinding (state : NodeMap × List GraphEdge) (f : FindingRecord) :
    NodeMap × List GraphEdge :=
  let r1 := ensureNode state.1 (findingNodeOf f)
  let r2 := ensureNode r1.1 (scanNodeOf f)
  let r3 := ensureNode r2.1 (scannerNodeOf f)
  let r4 := ensureNode r3.1 (vulnerabilityNodeOf f)
  let r5 := ensureNode r4.1 (assetNodeOf f)
  let base : NodeMap × List GraphEdge :=
    (r5.1, state.2 ++
      [createEdge "REPORTS" r1.2 r4.2,
       createEdge "FOUND_ON" r1.2 r5.2,
       createEdge "GENERATED_BY" r1.2 r3.2,
       createEdge "PART_OF_SCAN" r1.2 r2.2,
       createEdge "SCANNED_BY" r2.2 r3.2,
       createEdge "AFFECTS" r4.2 r5.2])
  let s6 := condNodeEdges (isTruthy f.asset.service)
    { label := "Service", id := some (jsStr f.asset.service)
      properties := [("name", optVal f.asset.service)] }
    (fun n =>
      [createEdge "BELONGS_TO_SERVICE" r5.2 n,
       createEdge "IMPACTS_SERVICE" r4.2 n])
    base
  let s7 := condNodeEdges (isTruthy f.asset.cluster)
    { label := "Cluster", id := some (jsStr f.asset.cluster)
      properties := [("name", optVal f.asset.cluster)] }
    (fun n => [createEdge "DEPLOYED_ON" r5.2 n])
    s6
  let s8 := condNodeEdges (isTruthy f.asset.registry)
    { label := "Registry", id := some (jsStr f.asset.registry)
      properties := [("name", optVal f.asset.registry)] }
    (fun n => [createEdge "PUBLISHED_TO" r5.2 n])
    s7
  let s9 := condNodeEdges (isTruthy f.asset.repo)
    { label := "Repository", id := some (jsStr f.asset.repo)
      properties := [("url", optVal f.asset.repo)] }
    (fun n => [createEdge "TRACKED_IN" r5.2 n])
    s8
  let s10 := condNodeEdges (f.asset.type = "source_file" && isTruthy f.asset.path)
    { label := "SourceFile", id := some (jsStr f.asset.path)
      properties := [("path", optVal f.asset.path)] }
    (fun n => [createEdge "CONTAINS_FILE" r5.2 n])
    s9
  match f.package with
  | some pkg =>
    condNodeEdges true
      { label := "Package", id := some (pkg.ecosystem ++ ":" ++ pkg.name ++ "@" ++ pkg.version)
        properties :=
          [("ecosystem", .str pkg.ecosystem), ("name", .str pkg.name),
           ("version", .str pkg.version)] }
      (fun n =>
        [createEdge "USES_PACKAGE" r5.2 n,
         createEdge "ASSOCIATED_WITH" n r4.2])
      s10
  | none => s10

/-- The result shape of `buildGraphPayload`. -/
structure GraphPayload where
  nodes : List GraphNode
  edges : List GraphEdge
deriving DecidableEq, Repr

/-- `buildGraphPayload` of build-graph.ts: fold the findings through
`buildFinding` and return the node-map values plus the edge list. -/
def buildGraphPayload (findings : List FindingRecord) : GraphPayload :=
  let st := findings.foldl buildFinding ([], [])
  { nodes := st.1.map (fun p => p.2), edges := st.2 }

/-! ## Edge merge engine (`mergeEdges` of ingest-findings.ts) -/

/-- The origin of an edge in the merge pass (`source: "base" | "agent"`). -/
inductive Source where
  | base
  | agent
deriving DecidableEq, Repr

/-- A merged edge record `{ ...edge, fromId, toId, properties }`. -/
structure MergedEdge where
  type : String
  fromRef : EdgeRef
  toRef : EdgeRef
  rationale : Option String
  fromId : Option String
  toId : Option String
  properties : Props
deriving DecidableEq, Repr

/-- The dedup key of `mergeEdges`:
`` `${type}|${from.label}|${from.id}|${to.label}|${to.id}` ``. -/
def edgeKey (e : GraphEdge) : String :=
  e.type ++ "|" ++ e.fromRef.label ++ "|" ++ jsStr e.fromRef.id ++ "|" ++
    e.toRef.label ++ "|" ++ jsStr e.toRef.id

/-- The same dedup key read off a merged record (its endpoints are copied
verbatim from the incoming edge). -/
def mergedKey (e : MergedEdge) : String :=
  e.type ++ "|" ++ e.fromRef.label ++ "|" ++ jsStr e.fromRef.id ++ "|" ++
    e.toRef.label ++ "|" ++ jsStr e.toRef.id

/-- The accumulator of the `addEdge` closure in `mergeEdges`. -/
structure MergeState where
  seen : List String
  merged : List MergedEdge
  agentApplied : List MergedEdge
  baseCount : Nat
  agentCount : Nat
deriving Repr

/-- The property bag a surviving edge receives in `addEdge`: agent edges
get rationale (when truthy), `provenance = "agent"`, `enriched = true`;
then nullish `provenance`/`enriched` are defaulted to `"base"`/`false`. -/
def mergeEdgeProps (edge : GraphEdge) (source : Source) : Props :=
  let props := edge.properties.getD []
  let props :=
    match source with
    | .agent =>
      let props :=
        if isTruthy edge.rationale then setProp props "rationale" (.str (jsStr edge.rationale))
        else props
      setProp (setProp props "provenance" (.str "agent")) "enriched" (.bool true)
    | .base => props
  let props := coalesceProp props "provenance" (.str "base")
  coalesceProp props "enriched" (.bool false)

/-- `addEdge` of `mergeEdges`: drop the edge when its key was seen,
otherwise record it with the merged property bag and update the counts. -/
def addEdge (st : MergeState) (edge : GraphEdge) (source : Source) : MergeState :=
  let key := edgeKey edge
  if key ∈ st.seen then st
  else
    let record : MergedEdge :=
      { type := edge.type
        fromRef := edge.fromRef
        toRef := edge.toRef
        rationale := edge.rationale
        fromId := edge.fromRef.id
        toId := edge.toRef.id
        properties := mergeEdgeProps edge source }
    { seen := st.seen ++ [key]
      merged := st.merged ++ [record]
      agentApplied := if source = .agent then st.agentApplied ++ [record] else st.agentApplied
      baseCount := if source = .base then st.baseCount + 1 else st.baseCount
      agentCount := if source = .agent then st.agentCount + 1 else st.agentCount }

/-- The result shape of `mergeEdges`. -/
structure MergeResult where
  edges : List MergedEdge
  baseCount : Nat
  agentCount : Nat
  agentApplied : List MergedEdge
deriving Repr

/-- `mergeEdges` of ingest-findings.ts: fold the base edges, then the
agent edges, through `addEdge`. -/
def mergeEdges (baseEdges : List GraphEdge) (agentEdges : List GraphEdge) : MergeResult :=
  let st : MergeState :=
    { seen := [], merged := [], agentApplied := [], baseCount := 0, agentCount := 0 }
  let st := baseEdges.foldl (fun st e => addEdge st e .base) st
  let st := agentEdges.foldl (fun st e => addEdge st e .agent) st
  { edges := st.merged
    baseCount := st.baseCount
    agentCount := st.agentCount
    agentApplied := st.agentApplied }

/-! ## Agent-edge endpoint resolution (`normalizeAgentEdges` of ingest-findings.ts) -/

/-- `Map.set` on a string-keyed map: replaces in place, last write wins. -/
def mapSet (m : List (String × EdgeRef)) (k : String) (v : EdgeRef) : List (String × EdgeRef) :=
  if m.any (fun p => p.1 = k) then m.map (fun p => if p.1 = k then (k, v) else p)
  else m ++ [(k, v)]

/-- `Map.get` on a string-keyed map. -/
def mapGet (m : List (String × EdgeRef)) (k : String) : Option EdgeRef :=
  (m.find? (fun p => p.1 = k)).map (fun p => p.2)

/-- The three lookup maps of `normalizeAgentEdges`, built in one pass over
the nodes: exact `label:id`, lowercased-label `label:id`, and id-only
(first node wins for `byId`, guarded by `has`). -/
def buildLookups (nodes : List GraphNode) :
    List (String × EdgeRef) × List (String × EdgeRef) × List (Option String × EdgeRef) :=
  nodes.foldl
    (fun maps node =>
      let (byLabelAndId, byLowerLabel, byId) := maps
      let ref : EdgeRef := { label := node.label, id := node.id }
      let byLabelAndId := mapSet byLabelAndId (node.label ++ ":" ++ jsStr node.id) ref
      let byLowerLabel := mapSet byLowerLabel (node.label.toLower ++ ":" ++ jsStr node.id) ref
      let byId :=
        if byId.any (fun p => p.1 = node.id) then byId else byId ++ [(node.id, ref)]
      (byLabelAndId, byLowerLabel, byId))
    ([], [], [])

/-- `resolveEndpoint`: exact `(label, id)`, then case-insensitive label
with exact id, then id alone — first match wins, else unresolved. -/
def resolveEndpoint (nodes : List GraphNode) (endpoint : EdgeRef) : Option EdgeRef :=
  let (byLabelAndId, byLowerLabel, byId) := buildLookups nodes
  match mapGet byLabelAndId (endpoint.label ++ ":" ++ jsStr endpoint.id) with
  | some exact => some exact
  | none =>
    match mapGet byLowerLabel (endpoint.label.toLower ++ ":" ++ jsStr endpoint.id) with
    | some lower => some lower
    | none => (byId.find? (fun p => p.1 = endpoint.id)).map (fun p => p.2)

/-- `normalizeAgentEdges` of ingest-findings.ts: resolve both endpoints of
every suggestion; drop (and count) suggestions with an unresolvable
endpoint. -/
def normalizeAgentEdges (agentEdges : List GraphEdge) (nodes : List GraphNode) :
    List GraphEdge × Nat :=
  if agentEdges.length = 0 then ([], 0)
  else
    agentEdges.foldl
      (fun (acc : List GraphEdge × Nat) edge =>
        match resolveEndpoint nodes edge.fromRef, resolveEndpoint nodes edge.toRef with
        | some fromR, some toR => (acc.1 ++ [{ edge with fromRef := fromR, toRef := toR }], acc.2)
        | _, _ => (acc.1, acc.2 + 1))
      ([], 0)

/-! ## Heuristic relationship inference (`heuristicSuggestions` of graph-agent.ts) -/

/-- Append a finding to its group, creating the group at the end on first
occurrence — the behaviour of the `Map`-based grouping loop. -/
def addToGroup (groups : List (String × List FindingRecord)) (k : String) (f : FindingRecord) :
    List (String × List FindingRecord) :=
  if groups.any (fun g => g.1 = k) then
    groups.map (fun g => if g.1 = k then (k, g.2 ++ [f]) else g)
  else groups ++ [(k, [f])]

/-- Group findings by an optional key, skipping findings whose key is
absent; key order is first-occurrence order, group order is encounter
order, as for a JS `Map` filled in one loop. -/
def groupByKeyOpt (key : FindingRecord → Option String) (findings : List FindingRecord) :
    List (String × List FindingRecord) :=
  findings.foldl
    (fun groups f =>
      match key f with
      | none => groups
      | some k => addToGroup groups k f)
    []

/-- The key of the `findingsByService` map: the asset service, when truthy
(the code guards with `if (finding.asset.service)`). -/
def serviceKey (f : FindingRecord) : Option String :=
  if isTruthy f.asset.service then f.asset.service else none

/-- The key of the `findingsByCve` map: the CVE id, when truthy. -/
def cveKey (f : FindingRecord) : Option String :=
  if isTruthy f.vulnerability.cve_id then f.vulnerability.cve_id else none

/-- The key of the `findingsByScan` map: the scan id, unconditionally. -/
def scanKey (f : FindingRecord) : Option String :=
  some f.scan_id

/-- All index pairs `i < j` of a list, in the emission order of the nested
`for` loops: `(0,1), (0,2), …, (1,2), …`. -/
def pairsOf : List FindingRecord → List (FindingRecord × FindingRecord)
  | [] => []
  | x :: xs => xs.map (fun y => (x, y)) ++ pairsOf xs

/-- Insert a finding into a time-sorted list, before the first element
whose time is not strictly smaller — the unique stable position. -/
def insertByTime (getTime : String → Int) (f : FindingRecord) :
    List FindingRecord → List FindingRecord
  | [] => [f]
  | g :: rest =>
    if getTime g.timestamp < getTime f.timestamp then g :: insertByTime getTime f rest
    else f :: g :: rest

/-- The stable ascending sort
`[...list].sort((a, b) => new Date(a.timestamp).getTime() - new Date(b.timestamp).getTime())`;
`getTime` abstracts `new Date(s).getTime()`. A stable comparator sort is
uniquely determined, so stable insertion sort models it exactly. -/
def sortByTime (getTime : String → Int) : List FindingRecord → List FindingRecord
  | [] => []
  | f :: rest => insertByTime getTime f (sortByTime getTime rest)

/-- `Math.round(delta / 60000)` for an integral millisecond delta: JS
rounds half toward positive infinity, i.e. `⌊delta/60000 + 1/2⌋`. -/
def roundDeltaMinutes (delta : Int) : Int :=
  Int.fdiv (delta + 30000) 60000

/-- One SHARED_SERVICE suggestion. -/
def sharedServiceEdge (service : String) (a b : FindingRecord) : GraphEdge :=
  { type := "SHARED_SERVICE"
    fromRef := { label := "Finding", id := some a.finding_id }
    toRef := { label := "Finding", id := some b.finding_id }
    properties := some
      [("service", .str service), ("agent_source", .str "heuristic"),
       ("provenance", .str "agent_heuristic")]
    rationale := some ("Both findings impact service " ++ service ++ ".") }

/-- One SHARED_CVE suggestion. -/
def sharedCveEdge (cve : String) (a b : FindingRecord) : GraphEdge :=
  { type := "SHARED_CVE"
    fromRef := { label := "Finding", id := some a.finding_id }
    toRef := { label := "Finding", id := some b.finding_id }
    properties := some
      [("cve", .str cve), ("agent_source", .str "heuristic"),
       ("provenance", .str "agent_heuristic")]
    rationale := some ("Both findings reference " ++ cve ++ ".") }

/-- One CO_OCCURS suggestion for an adjacent sorted pair. -/
def coOccursEdge (getTime : String → Int) (scanId : String) (a b : FindingRecord) : GraphEdge :=
  { type := "CO_OCCURS"
    fromRef := { label := "Finding", id := some a.finding_id }
    toRef := { label := "Finding", id := some b.finding_id }
    properties := some
      [("scan_id", .str scanId),
       ("delta_minutes", .int (roundDeltaMinutes (getTime b.timestamp - getTime a.timestamp))),
       ("agent_source", .str "heuristic"), ("provenance", .str "agent_heuristic")]
    rationale := some ("Findings discovered in scan " ++ scanId ++ " within the same run.") }

/-- `heuristicSuggestions` of graph-agent.ts: pairwise SHARED_SERVICE and
SHARED_CVE edges per group, then per-scan CO_OCCURS chains over the
time-sorted group (adjacent pairs only); groups of fewer than two findings
are skipped. -/
def heuristicSuggestions (getTime : String → Int) (findings : List FindingRecord) :
    List GraphEdge :=
  let serviceEdges :=
    (groupByKeyOpt serviceKey findings).flatMap
      (fun g =>
        if g.2.length < 2 then []
        else (pairsOf g.2).map (fun p => sharedServiceEdge g.1 p.1 p.2))
  let cveEdges :=
    (groupByKeyOpt cveKey findings).flatMap
      (fun g =>
        if g.2.length < 2 then []
        else (pairsOf g.2).map (fun p => sharedCveEdge g.1 p.1 p.2))
  let coEdges :=
    (groupByKeyOpt scanKey findings).flatMap
      (fun g =>
        if g.2.length < 2 then []
        else
          let sorted := sortByTime getTime g.2
          (sorted.zip sorted.tail).map (fun p => coOccursEdge getTime g.1 p.1 p.2))
  serviceEdges ++ cveEdges ++ coEdges

/-! ## LLM relationship inference (`llmTool` of graph-agent.ts) -/

/-- The outcome of `JSON.parse` on the first choice's message content:
either the parse throws, or it yields a value whose `edges` field is an
array of suggestions (`some`) or is missing / not an array (`none`). -/
inductive ContentParse where
  | malformed (msg : String)
  | parsed (edges : Option (List GraphEdge))
deriving Repr

/-- What the fetch response body provides to the tool after the HTTP call:
`await response.json()` may itself throw (`invalidJson`), the first
choice's message content may be missing (`noContent`), or the content
string is handed to `JSON.parse` (`content`). -/
inductive LlmBody where
  | invalidJson (msg : String)
  | noContent
  | content (c : ContentParse)
deriving Repr

/-- The observable part of the fetch response the tool branches on. -/
structure LlmResponse where
  ok : Bool
  status : Nat
  statusText : String
  body : LlmBody
deriving Repr

/-- The normalization `llmTool` applies to every suggested edge: keep a
string-typed `agent_source` / `provenance`, otherwise stamp `"llm"` /
`"agent_llm"`. -/
def stampLlmEdge (e : GraphEdge) : GraphEdge :=
  let props := e.properties.getD []
  let props :=
    match getProp props "agent_source" with
    | some (.str _) => props
    | _ => setProp props "agent_source" (.str "llm")
  let props :=
    match getProp props "provenance" with
    | some (.str _) => props
    | _ => setProp props "provenance" (.str "agent_llm")
  { e with properties := some props }

/-- A tool invocation outcome: a summary plus data, or a thrown error. -/
abbrev ToolOutcome := Except String (String × List GraphEdge)

/-- `llmTool.run` of graph-agent.ts, with the environment configuration
(`LITELLM_BASE_URL` / `LITELLM_API_KEY`) and the HTTP response as explicit
inputs. Absent or empty configuration short-circuits to an empty result;
a non-ok response throws; an unparseable body or content throws; missing
content or a JSON object without an `edges` array yields an empty list. -/
def llmToolRun (baseUrl apiKey : Option String) (resp : LlmResponse) : ToolOutcome :=
  if !isTruthy baseUrl || !isTruthy apiKey then
    .ok ("LiteLLM not configured; skipped LLM enrichment step.", [])
  else if !resp.ok then
    .error ("LiteLLM request failed: " ++ toString resp.status ++ " " ++ resp.statusText)
  else
    match resp.body with
    | .invalidJson msg => .error msg
    | .noContent => .ok ("LLM returned no content for relationships.", [])
    | .content (.malformed msg) =>
      .error ("Failed to parse LLM relationship JSON: " ++ msg)
    | .content (.parsed edgesOpt) =>
      let edges := edgesOpt.getD []
      let normalized := edges.map stampLlmEdge
      .ok ("LLM suggested " ++ toString normalized.length ++ " enriched relationship(s).",
           normalized)

/-! ## Agent runtime (`executeAgent` of lib/agents/runtime) -/

/-- A registered tool: name, description, and a run function that may
throw (`Except.error` models a rejected promise). `σ` is the accumulated
result state, `γ` the shared context, `δ` the step data type. -/
structure AgentTool (ι γ σ δ : Type) where
  name : String
  description : String
  run : ι → γ → σ → Except String (String × Option δ)

/-- One plan step: tool name, input, and the abort-on-failure flag
(`continueOnError`, default `false`). -/
structure AgentPlanStep (ι : Type) where
  tool : String
  input : ι
  continueOnError : Bool := false

/-- An executed step record. Timestamps come from an abstract clock
`times : Nat → Nat` (two reads per plan index). -/
structure AgentExecutedStep (ι δ : Type) where
  id : String
  tool : String
  description : String
  input : ι
  output : Option String
  data : Option δ
  error : Option String
  startedAt : Nat
  finishedAt : Nat
  durationMs : Int

/-- `new Map(tools.map(t => [t.name, t]))` lookup: for duplicate names the
last entry wins. -/
def lookupTool (tools : List (AgentTool ι γ σ δ)) (name : String) :
    Option (AgentTool ι γ σ δ) :=
  tools.reverse.find? (fun t => t.name = name)

/-- The step record for an unregistered tool. -/
def missingToolRecord (label : String) (step : AgentPlanStep ι) (idx : Nat)
    (times : Nat → Nat) : AgentExecutedStep ι δ :=
  { id := label ++ "-" ++ toString (idx + 1)
    tool := step.tool
    description := "Missing tool " ++ step.tool
    input := step.input
    output := none
    data := none
    error := some ("Tool " ++ step.tool ++ " not registered")
    startedAt := times (2 * idx)
    finishedAt := times (2 * idx + 1)
    durationMs := (times (2 * idx + 1) : Int) - times (2 * idx) }

/-- The step record for a tool whose run threw `msg`. -/
def failedToolRecord (label : String) (tool : AgentTool ι γ σ δ) (step : AgentPlanStep ι)
    (idx : Nat) (times : Nat → Nat) (msg : String) : AgentExecutedStep ι δ :=
  { id := label ++ "-" ++ toString (idx + 1)
    tool := tool.name
    description := tool.description
    input := step.input
    output := none
    data := none
    error := some msg
    startedAt := times (2 * idx)
    finishedAt := times (2 * idx + 1)
    durationMs := (times (2 * idx + 1) : Int) - times (2 * idx) }

/-- The step record for a successful tool run. -/
def successToolRecord (label : String) (tool : AgentTool ι γ σ δ) (step : AgentPlanStep ι)
    (idx : Nat) (times : Nat → Nat) (summary : String) (data : Option δ) :
    AgentExecutedStep ι δ :=
  { id := label ++ "-" ++ toString (idx + 1)
    tool := tool.name
    description := tool.description
    input := step.input
    output := some summary
    data := data
    error := none
    startedAt := times (2 * idx)
    finishedAt := times (2 * idx + 1)
    durationMs := (times (2 * idx + 1) : Int) - times (2 * idx) }

/-- The `for (const [index, step] of plan.entries())` loop of
`executeAgent`: sequential execution, a record per step; on success the
reducer folds the record into the state; on failure (missing tool or
thrown run) the reducer is skipped and the loop breaks unless
`continueOnError`. -/
def runPlan (label : String) (tools : List (AgentTool ι γ σ δ)) (context : γ)
    (reducer : σ → AgentExecutedStep ι δ → σ) (times : Nat → Nat) :
    List (AgentPlanStep ι) → σ → Nat → σ × List (AgentExecutedStep ι δ)
  | [], state, _ => (state, [])
  | step :: rest, state, idx =>
    match lookupTool tools step.tool with
    | none =>
      let executed : AgentExecutedStep ι δ := missingToolRecord label step idx times
      if step.continueOnError then
        let r := runPlan label tools context reducer times rest state (idx + 1)
        (r.1, executed :: r.2)
      else (state, [executed])
    | some tool =>
      match tool.run step.input context state with
      | .ok (summary, data) =>
        let executed := successToolRecord label tool step idx times summary data
        let r := runPlan label tools context reducer times rest (reducer state executed) (idx + 1)
        (r.1, executed :: r.2)
      | .error msg =>
        let executed : AgentExecutedStep ι δ := failedToolRecord label tool step idx times msg
        if step.continueOnError then
          let r := runPlan label tools context reducer times rest state (idx + 1)
          (r.1, executed :: r.2)
        else (state, [executed])

/-- `executeAgent` of the runtime: run the whole plan from the initial
result at index 0 and return the final state with the step log. -/
def executeAgent (label : String) (tools : List (AgentTool ι γ σ δ)) (context : γ)
    (reducer : σ → AgentExecutedStep ι δ → σ) (times : Nat → Nat)
    (plan : List (AgentPlanStep ι)) (initialResult : σ) :
    σ × List (AgentExecutedStep ι δ) :=
  runPlan label tools context reducer times plan initialResult 0

/-! ## Ingestion coordinator (`ingestFindings` of ingest-findings.ts) -/

/-- One store write executed through a Neo4j session, in order:
`resetGraphSnapshot`'s `MATCH (n) DETACH DELETE n`, one `UNWIND … MERGE`
per node label, one per `(type, fromLabel, toLabel)` edge group. -/
inductive StoreOp where
  | reset
  | mergeNodes (label : String) (rows : List (Option String × Props))
  | mergeRels (groupKey : String) (rows : List (Option String × Option String × Props))
deriving DecidableEq, Repr

/-- `withoutUndefined`: strip `undefined`- and `null`-valued properties
before every write. -/
def withoutUndefined (props : Props) : Props :=
  props.filter (fun p => p.2 ≠ .undef && p.2 ≠ .null)

/-- `groupByLabel`: nodes grouped by label, insertion-ordered. -/
def groupByLabel (nodes : List GraphNode) : List (String × List GraphNode) :=
  nodes.foldl
    (fun groups node =>
      if groups.any (fun g => g.1 = node.label) then
        groups.map (fun g => if g.1 = node.label then (g.1, g.2 ++ [node]) else g)
      else groups ++ [(node.label, [node])])
    []

/-- `groupEdgesByLabel`: merged edges grouped by the template key
`` `${type}|${from.label}|${to.label}` ``. -/
def groupEdgesByLabel (edges : List MergedEdge) :
    List (String × List MergedEdge) :=
  edges.foldl
    (fun groups edge =>
      let key := edge.type ++ "|" ++ edge.fromRef.label ++ "|" ++ edge.toRef.label
      if groups.any (fun g => g.1 = key) then
        groups.map (fun g => if g.1 = key then (g.1, g.2 ++ [edge]) else g)
      else groups ++ [(key, [edge])])
    []

/-- An applied agent relationship as reported in the result. -/
structure AppliedAgentRelationship where
  type : String
  fromRef : EdgeRef
  toRef : EdgeRef
  properties : Props
  rationale : Option String
deriving Repr

/-- The result record of `ingestFindings`. -/
structure IngestionResult where
  findings : Nat
  nodesCreated : Nat
  relationshipsCreated : Nat
  agentSuggestionsApplied : Nat
  agentSuggestionsDropped : Option Nat
  agentRelationships : List AppliedAgentRelationship
  provenanceBaseNodes : Nat
  provenanceBaseRelationships : Nat
  provenanceAgentNodes : Nat
  provenanceAgentRelationships : Nat
  skipped : Bool
deriving Repr

/-- The input of the enrichment plan steps (`{ reason: string }`). -/
structure AgentStepInput where
  reason : String

/-- The record `inferAgentRelationships` of graph-agent.ts resolves with:
the reduced suggestion list plus the executed step log — a plain object
`{ edges, steps }`, not an array. -/
structure AgentRelationshipInference where
  edges : List GraphEdge
  steps : List (AgentExecutedStep AgentStepInput (List GraphEdge))

/-- The dynamic value `normalizeAgentEdges` receives at runtime: its
TypeScript signature declares a suggestion array, but ingest-findings.ts
passes the whole `AgentRelationshipInference` record. -/
inductive NormalizeArg where
  | array (edges : List GraphEdge)
  | record (inference : AgentRelationshipInference)

/-- The JS property read `agentEdges.length`: a number on an array,
`undefined` on the plain record (whose only properties are `edges` and
`steps`). -/
def jsLength : NormalizeArg → Option Nat
  | .array edges => some edges.length
  | .record _ => none

/-- `normalizeAgentEdges` as executed at runtime: the guard
`agentEdges.length === 0` compares `undefined === 0` (false) on the
record, and the loop header `for (const edge of agentEdges)` then throws —
a plain object is not iterable. Only a genuine array reaches the
resolution loop (`normalizeAgentEdges`). -/
def normalizeAgentEdgesDyn (arg : NormalizeArg) (nodes : List GraphNode) :
    Except String (List GraphEdge × Nat) :=
  if jsLength arg = some 0 then .ok ([], 0)
  else
    match arg with
    | .array edges => .ok (normalizeAgentEdges edges nodes)
    | .record _ => .error "TypeError: agentEdges is not iterable"

/-- `ingestFindings` of ingest-findings.ts, with the agent-stage record
(`await inferAgentRelationships(findings)`) as an explicit input and the
store modelled as the ordered list of executed writes (second component).
An empty batch throws `No findings provided`. Otherwise the source passes
the whole `{edges, steps}` record to `normalizeAgentEdges`, which throws
`TypeError` before `resetGraphSnapshot` and before any store write, so
the call errors with zero writes. The reset-then-write path below the
normalization (wipe, grouped node and edge batches, a result with
`skipped = false`, no fingerprint, no IngestionRun) is translated
faithfully in the `.ok` branch but is unreachable. -/
def ingestFindings (findings : List FindingRecord)
    (inference : AgentRelationshipInference) :
    Except String IngestionResult × List StoreOp :=
  if findings.length = 0 then (.error "No findings provided for ingestion", [])
  else
    let basePayload := buildGraphPayload findings
    match normalizeAgentEdgesDyn (.record inference) basePayload.nodes with
    | .error e => (.error e, [])
    | .ok (normalizedAgentEdges, dropped) =>
      let m := mergeEdges basePayload.edges normalizedAgentEdges
      let groupedNodes := groupByLabel basePayload.nodes
      let groupedEdges := groupEdgesByLabel m.edges
      let nodeOps := groupedNodes.map
        (fun g => StoreOp.mergeNodes g.1
          (g.2.map (fun n => (n.id, withoutUndefined n.properties))))
      let relOps := groupedEdges.map
        (fun g => StoreOp.mergeRels g.1
          (g.2.map (fun e => (e.fromId, e.toId, withoutUndefined e.properties))))
      (.ok
        { findings := findings.length
          nodesCreated := basePayload.nodes.length
          relationshipsCreated := m.edges.length
          agentSuggestionsApplied := m.agentCount
          agentSuggestionsDropped := if dropped > 0 then some dropped else none
          agentRelationships := m.agentApplied.map
            (fun e =>
              { type := e.type, fromRef := e.fromRef, toRef := e.toRef
                properties := e.properties, rationale := e.rationale })
          provenanceBaseNodes := basePayload.nodes.length
          provenanceBaseRelationships := m.baseCount
          provenanceAgentNodes := 0
          provenanceAgentRelationships := m.agentCount
          skipped := false },
       StoreOp.reset :: (nodeOps ++ relOps))

/-- The graph store, as far as the claims observe it: the writes applied
since the last `MATCH (n) DETACH DELETE n`. A reset discards everything
present, a merge write appends. -/
def applyOp (store : List StoreOp) : StoreOp → List StoreOp
  | .reset => []
  | op => store ++ [op]

/-- Apply a sequence of writes to a store state. -/
def applyOps (ops : List StoreOp) (store : List StoreOp) : List StoreOp :=
  ops.foldl applyOp store

/-! ## Concrete fixtures used by counterexamples and witnesses -/

/-- A vulnerability descriptor with no CVE, CWE or OWASP identifier. -/
def noIdVulnerability : Vulnerability :=
  { owasp_id := none, cwe_id := none, cve_id := none, title := "Reflected XSS"
    severity := "HIGH", description := "desc", vector := "network" }

/-- An asset descriptor with only a type (api_endpoint) set. -/
def bareAsset : AssetDescriptor :=
  { type := "api_endpoint", url := none, path := none, image := none, registry := none
    service := none, cluster := none, repo := none }

/-- A finding with no vulnerability identifiers and no package. -/
def noIdFinding : FindingRecord :=
  { finding_id := "FG-1", scanner := "zap", scan_id := "scan-9"
    timestamp := "2025-02-01T08:00:00Z", vulnerability := noIdVulnerability
    asset := bareAsset, package := none }

/-- A base edge as `buildGraphPayload` produces it (no properties). -/
def dupBaseEdge : GraphEdge :=
  { type := "REPORTS"
    fromRef := { label := "Finding", id := some "FG-1" }
    toRef := { label := "Vulnerability", id := some "CVE-2023-1111" }
    properties := none
    rationale := none }

/-- An agent suggestion with the same dedup key as `dupBaseEdge`, carrying
a rationale and heuristic provenance markers. -/
def dupAgentEdge : GraphEdge :=
  { type := "REPORTS"
    fromRef := { label := "Finding", id := some "FG-1" }
    toRef := { label := "Vulnerability", id := some "CVE-2023-1111" }
    properties := some
      [("agent_source", .str "heuristic"), ("provenance", .str "agent_heuristic")]
    rationale := some "Same root cause." }

/-- First finding of the CO_OCCURS scenario: scan-1, CVE-2024-35689. -/
def scenFinding1 : FindingRecord :=
  { finding_id := "F-A", scanner := "zap", scan_id := "scan-1"
    timestamp := "2025-01-01T10:00:00Z"
    vulnerability := { noIdVulnerability with cve_id := some "CVE-2024-35689" }
    asset := bareAsset, package := none }

/-- Second finding of the CO_OCCURS scenario, ten minutes later. -/
def scenFinding2 : FindingRecord :=
  { finding_id := "F-B", scanner := "zap", scan_id := "scan-1"
    timestamp := "2025-01-01T10:10:00Z"
    vulnerability := { noIdVulnerability with cve_id := some "CVE-2024-35689" }
    asset := bareAsset, package := none }

/-- A clock for the scenario witness: the second timestamp is 600 000 ms
(ten minutes) after the first. -/
def scenGetTime : String → Int :=
  fun s => if s = "2025-01-01T10:10:00Z" then 600000 else 0

/-- A finding carrying both a container image and a URL. -/
def imageUrlFinding : FindingRecord :=
  { finding_id := "FG-2", scanner := "trivy", scan_id := "scan-2"
    timestamp := "2025-02-01T09:00:00Z", vulnerability := noIdVulnerability
    asset := { bareAsset with
               image := some "registry.io/app:1.2"
               url := some "https://app.example.com/login" }
    package := none }

/-- A 2xx LLM response whose content is valid JSON but has no `edges`
array. -/
def noEdgesResponse : LlmResponse :=
  { ok := true, status := 200, statusText := "OK", body := .content (.parsed none) }

/-- A failing tool for the runtime witness. -/
def boomTool : AgentTool Unit Unit Nat Nat :=
  { name := "boom", description := "always fails"
    run := fun _ _ _ => .error "kaboom" }

/-- A plan step invoking `boomTool` with the default abort-on-failure. -/
def boomStep : AgentPlanStep Unit :=
  { tool := "boom", input := () }

/-- The merged REPORTS record surviving for `noIdFinding`. -/
def reportsMergedRecord : MergedEdge :=
  { type := "REPORTS"
    fromRef := { label := "Finding", id := some "FG-1" }
    toRef := { label := "Vulnerability", id := none }
    rationale := none
    fromId := some "FG-1"
    toId := none
    properties := [("provenance", .str "base"), ("enriched", .bool false)] }

/-- The record surviving the duplicate base/agent pair. -/
def dupSurvivorRecord : MergedEdge :=
  { type := "REPORTS"
    fromRef := { label := "Finding", id := some "FG-1" }
    toRef := { label := "Vulnerability", id := some "CVE-2023-1111" }
    rationale := none
    fromId := some "FG-1"
    toId := some "CVE-2023-1111"
    properties := [("provenance", .str "base"), ("enriched", .bool false)] }

/-- A concrete agent-stage record (empty edge list and step log). -/
def emptyInference : AgentRelationshipInference :=
  { edges := [], steps := [] }

/-- A non-2xx LLM response. -/
def llmBadGateway : LlmResponse :=
  { ok := false, status := 502, statusText := "Bad Gateway", body := .noContent }

/-! ## Helper lemmas -/

theorem isTruthy_some_of_ne {s : String} (h : s ≠ "") : isTruthy (some s) = true := by
  have : s.isEmpty = false := by
    cases he : s.isEmpty
    · rfl
    · exact absurd ((String.isEmpty_iff s).mp he) h
  simp [isTruthy, this]

theorem string_append_ne_of_ne_at (p q : String) (i : Nat) (hp : i < p.data.length)
    (hq : i < q.data.length) (h : p.data.get? i ≠ q.data.get? i) (a b : String) :
    p ++ a ≠ q ++ b := by
  intro he
  have hdata : (p ++ a).data = (q ++ b).data := by rw [he]
  rw [String.data_append, String.data_append] at hdata
  have h1 : (p.data ++ a.data).get? i = p.data.get? i := List.get?_append hp
  have h2 : (q.data ++ b.data).get? i = q.data.get? i := List.get?_append hq
  rw [hdata, h2] at h1
  exact h h1.symm

/-! ## C7: asset id derivation priority -/

/-- C7: `deriveAssetId` follows the strict priority image → URL → path →
type/service fallback; in particular, when a (truthy) container image is
present the id is `image:<image>` regardless of any URL. -/
theorem deriveAssetId_priority_order (f : FindingRecord) :
    (∀ img, f.asset.image = some img → img ≠ "" →
      deriveAssetId f = "image:" ++ img) ∧
    (isTruthy f.asset.image = false → ∀ u, f.asset.url = some u → u ≠ "" →
      deriveAssetId f = u) ∧
    (isTruthy f.asset.image = false → isTruthy f.asset.url = false →
      ∀ p, f.asset.path = some p → p ≠ "" → deriveAssetId f = "file:" ++ p) ∧
    (isTruthy f.asset.image = false → isTruthy f.asset.url = false →
      isTruthy f.asset.path = false →
      deriveAssetId f = f.asset.type ++ ":" ++ f.asset.service.getD "unknown") := by
  refine ⟨?_, ?_, ?_, ?_⟩
  · intro img himg hne
    simp [deriveAssetId, himg, isTruthy_some_of_ne hne, jsStr]
  · intro himg u hu hne
    simp [deriveAssetId, himg, hu, isTruthy_some_of_ne hne, jsStr]
  · intro himg hurl p hp hne
    simp [deriveAssetId, himg, hurl, hp, isTruthy_some_of_ne hne, jsStr]
  · intro himg hurl hpath
    simp [deriveAssetId, himg, hurl, hpath]

/-- C7 witness: a finding with both image `registry.io/app:1.2` and a URL
derives the image-prefixed id, not the URL. -/
theorem deriveAssetId_priority_order_witness :
    imageUrlFinding.asset.image = some "registry.io/app:1.2" ∧
    imageUrlFinding.asset.url = some "https://app.example.com/login" ∧
    deriveAssetId imageUrlFinding = "image:registry.io/app:1.2" :=
  ⟨rfl, rfl,
    (deriveAssetId_priority_order imageUrlFinding).1 "registry.io/app:1.2" rfl (by decide)⟩

/-! ## C2 counterexample: duplicates are dropped wholesale -/

/-- C2 counterexample: a base edge followed by an agent edge with the same
dedup key and a rationale. The surviving record keeps `provenance = "base"`
and `enriched = false` and receives no rationale — the agent edge's
markers are NOT attached to the surviving record, and the agent edge is
not even counted as applied. -/
theorem mergeEdges_duplicate_drops_agent_markers_cex :
    (mergeEdges [dupBaseEdge] [dupAgentEdge]).edges =
      [{ type := "REPORTS"
         fromRef := { label := "Finding", id := some "FG-1" }
         toRef := { label := "Vulnerability", id := some "CVE-2023-1111" }
         rationale := none
         fromId := some "FG-1"
         toId := some "CVE-2023-1111"
         properties := [("provenance", .str "base"), ("enriched", .bool false)] }] ∧
    (mergeEdges [dupBaseEdge] [dupAgentEdge]).agentCount = 0 := by
  constructor <;> rfl

/-! ## C10 counterexample: unexpected JSON shape does not raise -/

/-- C10 counterexample: with configuration present and a 2xx response
whose content is valid JSON but cannot be read as `{edges: [...]}` (no
`edges` array), the tool returns an empty list instead of raising. -/
theorem llm_no_edges_array_does_not_raise_cex :
    llmToolRun (some "http://llm.local") (some "sk-key") noEdgesResponse =
      .ok ("LLM suggested 0 enriched relationship(s).", []) := rfl

/-! ## C1: every call throws before any store interaction -/

/-- C1: evaluating `ingestFindings` on a one-finding batch with the agent
stage's `{edges, steps}` record: the call throws `TypeError` inside
`normalizeAgentEdges` (the record is not iterable) before
`resetGraphSnapshot` and before any store write — zero writes, no result.
The function is pure in its inputs and consults no fingerprint or
IngestionRun record, so a second call with the identical batch throws
identically: a `skipped = true` result is never produced. -/
theorem ingest_type_error_before_any_write :
    ingestFindings [noIdFinding] emptyInference =
      (.error "TypeError: agentEdges is not iterable", []) := rfl

/-! ## C3: the snapshot wipe is unreachable -/

/-- C3: for every batch and agent-stage record, `ingestFindings` performs
zero store operations — in particular `MATCH (n) DETACH DELETE n` never
executes — and returns an error, so any prior store state survives
unchanged (applying the performed writes to any store is the identity). -/
theorem ingest_never_reaches_store (findings : List FindingRecord)
    (inference : AgentRelationshipInference) :
    (ingestFindings findings inference).2 = [] ∧
    (∃ e, (ingestFindings findings inference).1 = Except.error e) ∧
    (∀ s, applyOps (ingestFindings findings inference).2 s = s) := by
  unfold ingestFindings
  split
  · exact ⟨rfl, ⟨_, rfl⟩, fun s => rfl⟩
  · exact ⟨rfl, ⟨_, rfl⟩, fun s => rfl⟩

/-! ## Property-bag lemmas -/

theorem find?_map_setkey_ne (ps : Props) (k k' : String) (v : PropVal) (h : k' ≠ k) :
    (ps.map (fun q => if q.1 = k then (k, v) else q)).find? (fun q => q.1 = k') =
      ps.find? (fun q => q.1 = k') := by
  induction ps with
  | nil => rfl
  | cons p ps ih =>
    rw [List.map_cons]
    by_cases hp : p.1 = k
    · rw [if_pos hp]
      rw [List.find?_cons_of_neg _ (by simp [Ne.symm h]),
          List.find?_cons_of_neg _ (by simp [hp, Ne.symm h]), ih]
    · rw [if_neg hp]
      by_cases hpk : p.1 = k'
      · rw [List.find?_cons_of_pos _ (by simp [hpk]), List.find?_cons_of_pos _ (by simp [hpk])]
      · rw [List.find?_cons_of_neg _ (by simp [hpk]), List.find?_cons_of_neg _ (by simp [hpk]),
            ih]

theorem find?_map_setkey_self (ps : Props) (k : String) (v : PropVal) :
    (ps.map (fun q => if q.1 = k then (k, v) else q)).find? (fun q => q.1 = k) =
      if ps.any (fun q => q.1 = k) then some (k, v) else none := by
  induction ps with
  | nil => rfl
  | cons p ps ih =>
    rw [List.map_cons]
    by_cases hp : p.1 = k
    · rw [if_pos hp, List.find?_cons_of_pos _ (by simp)]
      rw [if_pos (by simp [List.any_cons, hp])]
    · rw [if_neg hp, List.find?_cons_of_neg _ (by simp [hp]), ih]
      by_cases hany : ps.any (fun q => q.1 = k)
      · rw [if_pos hany, if_pos (by simp [List.any_cons, hany])]
      · rw [if_neg hany, if_neg (by simp [List.any_cons, hp, hany])]

theorem find?_append_none {α : Type} (l₁ l₂ : List α) (p : α → Bool)
    (h : l₁.find? p = none) : (l₁ ++ l₂).find? p = l₂.find? p := by
  rw [List.find?_append, h]
  rfl

theorem getProp_setProp_self (ps : Props) (k : String) (v : PropVal) :
    getProp (setProp ps k v) k = some v := by
  unfold setProp getProp
  by_cases hany : ps.any (fun p => p.1 = k)
  · rw [if_pos hany, find?_map_setkey_self, if_pos hany]
    rfl
  · rw [if_neg hany]
    have hnone : ps.find? (fun p => p.1 = k) = none := by
      rw [List.find?_eq_none]
      intro p hp hk
      exact absurd (List.any_eq_true.mpr ⟨p, hp, hk⟩) hany
    rw [find?_append_none _ _ _ hnone]
    simp [List.find?]

theorem getProp_setProp_ne (ps : Props) {k k' : String} (v : PropVal) (h : k' ≠ k) :
    getProp (setProp ps k v) k' = getProp ps k' := by
  unfold setProp getProp
  by_cases hany : ps.any (fun p => p.1 = k)
  · rw [if_pos hany, find?_map_setkey_ne _ _ _ _ h]
  · rw [if_neg hany]
    cases hfind : ps.find? (fun p => p.1 = k') with
    | some q => rw [List.find?_append, hfind]; rfl
    | none =>
      rw [find?_append_none _ _ _ hfind]
      simp [List.find?, Ne.symm h]

theorem coalesceProp_of_not_nullish (ps : Props) (k : String) (v : PropVal)
    (h : isNullish (getProp ps k) = false) : coalesceProp ps k v = ps := by
  unfold coalesceProp
  rw [h]
  rfl

theorem getProp_coalesceProp_ne (ps : Props) {k k' : String} (v : PropVal) (h : k' ≠ k) :
    getProp (coalesceProp ps k v) k' = getProp ps k' := by
  unfold coalesceProp
  by_cases hn : isNullish (getProp ps k) = true
  · rw [if_pos hn]
    exact getProp_setProp_ne ps v h
  · rw [if_neg hn]

theorem getProp_coalesceProp_self (ps : Props) (k : String) (v : PropVal) :
    getProp (coalesceProp ps k v) k = some v ∨
      (getProp (coalesceProp ps k v) k = getProp ps k ∧
        isNullish (getProp ps k) = false) := by
  unfold coalesceProp
  by_cases hn : isNullish (getProp ps k) = true
  · rw [if_pos hn]
    exact Or.inl (getProp_setProp_self ps k v)
  · rw [if_neg hn]
    exact Or.inr ⟨rfl, by simpa using hn⟩

/-! ## Merge-fold invariants -/

theorem mergeEdgeProps_base_none (e : GraphEdge) (h : e.properties = none) :
    mergeEdgeProps e .base = [("provenance", .str "base"), ("enriched", .bool false)] := by
  unfold mergeEdgeProps
  rw [h]
  rfl

theorem mergeEdgeProps_agent_marks (e : GraphEdge) :
    getProp (mergeEdgeProps e .agent) "provenance" = some (.str "agent") ∧
    getProp (mergeEdgeProps e .agent) "enriched" = some (.bool true) := by
  have key : ∀ q : Props,
      getProp (coalesceProp (coalesceProp
        (setProp (setProp q "provenance" (.str "agent")) "enriched" (.bool true))
        "provenance" (.str "base")) "enriched" (.bool false)) "provenance" =
          some (.str "agent") ∧
      getProp (coalesceProp (coalesceProp
        (setProp (setProp q "provenance" (.str "agent")) "enriched" (.bool true))
        "provenance" (.str "base")) "enriched" (.bool false)) "enriched" =
          some (.bool true) := by
    intro q
    set X := setProp (setProp q "provenance" (.str "agent")) "enriched" (.bool true) with hX
    have h1 : getProp X "provenance" = some (.str "agent") := by
      rw [hX, getProp_setProp_ne _ _ (by decide), getProp_setProp_self]
    have h2 : getProp X "enriched" = some (.bool true) := by
      rw [hX, getProp_setProp_self]
    have hc1 : coalesceProp X "provenance" (.str "base") = X :=
      coalesceProp_of_not_nullish _ _ _ (by rw [h1]; rfl)
    have hc2 : coalesceProp X "enriched" (.bool false) = X :=
      coalesceProp_of_not_nullish _ _ _ (by rw [h2]; rfl)
    rw [hc1, hc2]
    exact ⟨h1, h2⟩
  unfold mergeEdgeProps
  exact key _

/-- The fold invariant of `mergeEdges`: every surviving record has its key
in the seen set, and the surviving keys are pairwise distinct. -/
def MergeInv (st : MergeState) : Prop :=
  (∀ r ∈ st.merged, mergedKey r ∈ st.seen) ∧
  st.merged.Pairwise (fun a b => mergedKey a ≠ mergedKey b)

theorem addEdge_seen_subset (st : MergeState) (e : GraphEdge) (s : Source) :
    st.seen ⊆ (addEdge st e s).seen := by
  simp only [addEdge]
  split
  · exact fun x hx => hx
  · exact fun x hx => List.mem_append_left _ hx

theorem addEdge_mem_seen (st : MergeState) (e : GraphEdge) (s : Source) :
    edgeKey e ∈ (addEdge st e s).seen := by
  simp only [addEdge]
  split
  · next h => exact h
  · exact List.mem_append_right _ (List.mem_singleton.mpr rfl)

theorem addEdge_inv (st : MergeState) (e : GraphEdge) (s : Source) (h : MergeInv st) :
    MergeInv (addEdge st e s) := by
  simp only [addEdge, MergeInv]
  split
  · exact h
  · next hkey =>
    constructor
    · intro r hr
      rcases List.mem_append.mp hr with h1 | h2
      · exact List.mem_append_left _ (h.1 r h1)
      · rw [List.mem_singleton.mp h2]
        exact List.mem_append_right _ (List.mem_singleton.mpr rfl)
    · rw [List.pairwise_append]
      refine ⟨h.2, List.pairwise_singleton _ _, ?_⟩
      intro a ha b hb
      rw [List.mem_singleton.mp hb]
      intro heq
      have hmem := h.1 a ha
      rw [heq] at hmem
      exact hkey hmem

theorem foldl_addEdge_inv (l : List GraphEdge) (s : Source) (st : MergeState)
    (h : MergeInv st) : MergeInv (l.foldl (fun st e => addEdge st e s) st) := by
  induction l generalizing st with
  | nil => exact h
  | cons e l ih => exact ih _ (addEdge_inv st e s h)

theorem mergeEdges_inv (baseEdges agentEdges : List GraphEdge) :
    MergeInv ((agentEdges.foldl (fun st e => addEdge st e .agent)
      (baseEdges.foldl (fun st e => addEdge st e .base)
        { seen := [], merged := [], agentApplied := [], baseCount := 0, agentCount := 0 }))) :=
  foldl_addEdge_inv _ _ _ (foldl_addEdge_inv _ _ _
    ⟨(by intro r hr; cases hr), List.Pairwise.nil⟩)

theorem mergedKey_eq_of_tuple_eq {a b : MergedEdge}
    (h : (a.type, a.fromRef.label, a.fromRef.id, a.toRef.label, a.toRef.id) =
      (b.type, b.fromRef.label, b.fromRef.id, b.toRef.label, b.toRef.id)) :
    mergedKey a = mergedKey b := by
  obtain ⟨h1, h2, h3, h4, h5⟩ : a.type = b.type ∧ a.fromRef.label = b.fromRef.label ∧
      a.fromRef.id = b.fromRef.id ∧ a.toRef.label = b.toRef.label ∧
      a.toRef.id = b.toRef.id := by
    simpa [Prod.ext_iff] using h
  unfold mergedKey
  rw [h1, h2, h3, h4, h5]

/-! ## C8: the merge step never yields two edges with the same dedup key -/

/-- C8: for every list of base edges and agent-suggested edges, no two
surviving merged edges share the (type, from.label, from.id, to.label,
to.id) key; string equality is case-sensitive throughout. -/
theorem mergeEdges_no_duplicate_keys (baseEdges agentEdges : List GraphEdge) :
    (mergeEdges baseEdges agentEdges).edges.Pairwise (fun a b =>
      (a.type, a.fromRef.label, a.fromRef.id, a.toRef.label, a.toRef.id) ≠
      (b.type, b.fromRef.label, b.fromRef.id, b.toRef.label, b.toRef.id)) := by
  have h := (mergeEdges_inv baseEdges agentEdges).2
  exact h.imp (fun hk ht => hk (mergedKey_eq_of_tuple_eq ht))

/-! ## Origin of merged records -/

theorem foldl_addEdge_merged_subset (l : List GraphEdge) (s : Source) (st : MergeState) :
    st.merged ⊆ (l.foldl (fun st e => addEdge st e s) st).merged := by
  induction l generalizing st with
  | nil => exact fun r hr => hr
  | cons e l ih =>
    intro r hr
    refine ih _ ?_
    revert hr
    simp only [addEdge]
    split
    · exact fun hr => hr
    · exact fun hr => List.mem_append_left _ hr

theorem foldl_addEdge_seen_subset (l : List GraphEdge) (s : Source) (st : MergeState) :
    st.seen ⊆ (l.foldl (fun st e => addEdge st e s) st).seen := by
  induction l generalizing st with
  | nil => exact fun x hx => hx
  | cons e l ih => exact fun x hx => ih _ (addEdge_seen_subset st e s hx)

theorem foldl_addEdge_keys_seen (l : List GraphEdge) (s : Source) (st : MergeState) :
    ∀ e ∈ l, edgeKey e ∈ (l.foldl (fun st e => addEdge st e s) st).seen := by
  induction l generalizing st with
  | nil => intro e he; cases he
  | cons e l ih =>
    intro x hx
    rcases List.mem_cons.mp hx with rfl | hx
    · exact foldl_addEdge_seen_subset l s _ (addEdge_mem_seen st x s)
    · exact ih _ x hx

theorem foldl_addEdge_merged_mem (l : List GraphEdge) (s : Source) (st : MergeState) :
    ∀ r ∈ (l.foldl (fun st e => addEdge st e s) st).merged,
      r ∈ st.merged ∨ ∃ e ∈ l, r.properties = mergeEdgeProps e s := by
  induction l generalizing st with
  | nil => exact fun r hr => Or.inl hr
  | cons e l ih =>
    intro r hr
    rcases ih _ r hr with h1 | h2
    · revert h1
      simp only [addEdge]
      split
      · exact fun h1 => Or.inl h1
      · intro h1
        rcases List.mem_append.mp h1 with h | h
        · exact Or.inl h
        · refine Or.inr ⟨e, List.mem_cons_self e l, ?_⟩
          rw [List.mem_singleton.mp h]
    · rcases h2 with ⟨x, hx, hp⟩
      exact Or.inr ⟨x, List.mem_cons_of_mem _ hx, hp⟩

theorem foldl_addEdge_merged_new_key (l : List GraphEdge) (s : Source) (st : MergeState) :
    ∀ r ∈ (l.foldl (fun st e => addEdge st e s) st).merged,
      r ∈ st.merged ∨ mergedKey r ∉ st.seen := by
  induction l generalizing st with
  | nil => exact fun r hr => Or.inl hr
  | cons e l ih =>
    intro r hr
    rcases ih _ r hr with h1 | h2
    · revert h1
      simp only [addEdge]
      split
      · exact fun h1 => Or.inl h1
      · next hkey =>
        intro h1
        rcases List.mem_append.mp h1 with h | h
        · exact Or.inl h
        · rw [List.mem_singleton.mp h]
          exact Or.inr hkey
    · refine Or.inr fun hmem => h2 ?_
      exact addEdge_seen_subset st e s hmem

/-! ## Edges built by the Graph Model Builder carry no property bag -/

theorem createEdge_props (t : String) (a b : GraphNode) :
    (createEdge t a b).properties = none := rfl

theorem condNodeEdges_props_none (cond : Bool) (node : GraphNode)
    (mk : GraphNode → List GraphEdge) (prev : NodeMap × List GraphEdge)
    (hprev : ∀ e ∈ prev.2, e.properties = none)
    (hmk : ∀ n, ∀ e ∈ mk n, e.properties = none) :
    ∀ e ∈ (condNodeEdges cond node mk prev).2, e.properties = none := by
  unfold condNodeEdges
  split
  · intro e he
    simp only at he
    rcases List.mem_append.mp he with h | h
    · exact hprev e h
    · exact hmk _ e h
  · exact hprev

theorem buildFinding_edges_props_none (state : NodeMap × List GraphEdge) (f : FindingRecord)
    (h : ∀ e ∈ state.2, e.properties = none) :
    ∀ e ∈ (buildFinding state f).2, e.properties = none := by
  have hsix : ∀ (r1 r2 r3 r4 r5 : NodeMap × GraphNode),
      ∀ e ∈ (state.2 ++
        [createEdge "REPORTS" r1.2 r4.2,
         createEdge "FOUND_ON" r1.2 r5.2,
         createEdge "GENERATED_BY" r1.2 r3.2,
         createEdge "PART_OF_SCAN" r1.2 r2.2,
         createEdge "SCANNED_BY" r2.2 r3.2,
         createEdge "AFFECTS" r4.2 r5.2]), e.properties = none := by
    intro r1 r2 r3 r4 r5 e he
    rcases List.mem_append.mp he with hm | hm
    · exact h e hm
    · simp only [List.mem_cons, List.not_mem_nil, or_false] at hm
      rcases hm with rfl | rfl | rfl | rfl | rfl | rfl <;> rfl
  have hpair : ∀ (a : GraphNode × GraphNode) (t₁ t₂ : String),
      ∀ n : GraphNode, ∀ e ∈ [createEdge t₁ a.1 n, createEdge t₂ a.2 n],
        e.properties = none := by
    intro a t₁ t₂ n e he
    simp only [List.mem_cons, List.not_mem_nil, or_false] at he
    rcases he with rfl | rfl <;> rfl
  have hone : ∀ (a : GraphNode) (t : String), ∀ n : GraphNode,
      ∀ e ∈ [createEdge t a n], e.properties = none := by
    intro a t n e he
    simp only [List.mem_cons, List.not_mem_nil, or_false] at he
    rcases he with rfl
    rfl
  have hpkg : ∀ (a b : GraphNode) (t₁ t₂ : String),
      ∀ n : GraphNode, ∀ e ∈ [createEdge t₁ a n, createEdge t₂ n b],
        e.properties = none := by
    intro a b t₁ t₂ n e he
    simp only [List.mem_cons, List.not_mem_nil, or_false] at he
    rcases he with rfl | rfl <;> rfl
  rcases hp : f.package with _ | pkg <;> simp only [buildFinding, hp]
  · exact
      condNodeEdges_props_none _ _ _ _
        (condNodeEdges_props_none _ _ _ _
          (condNodeEdges_props_none _ _ _ _
            (condNodeEdges_props_none _ _ _ _
              (condNodeEdges_props_none _ _ _ _
                (hsix _ _ _ _ _)
                (hpair (_, _) _ _))
              (hone _ _))
            (hone _ _))
          (hone _ _))
        (hone _ _)
  · exact
      condNodeEdges_props_none _ _ _ _
        (condNodeEdges_props_none _ _ _ _
          (condNodeEdges_props_none _ _ _ _
            (condNodeEdges_props_none _ _ _ _
              (condNodeEdges_props_none _ _ _ _
                (condNodeEdges_props_none _ _ _ _
                  (hsix _ _ _ _ _)
                  (hpair (_, _) _ _))
                (hone _ _))
              (hone _ _))
            (hone _ _))
          (hone _ _))
        (hpkg _ _ _ _)

theorem buildGraphPayload_edges_props_none (findings : List FindingRecord) :
    ∀ e ∈ (buildGraphPayload findings).edges, e.properties = none := by
  have main : ∀ (l : List FindingRecord) (st : NodeMap × List GraphEdge),
      (∀ e ∈ st.2, e.properties = none) →
      ∀ e ∈ (l.foldl buildFinding st).2, e.properties = none := by
    intro l
    induction l with
    | nil => exact fun st h => h
    | cons f l ih => exact fun st h => ih _ (buildFinding_edges_props_none st f h)
  intro e he
  exact main findings ([], []) (fun e he => absurd he (List.not_mem_nil e)) e he

/-! ## C9: provenance and enriched are always defined on surviving edges -/

/-- C9: every edge surviving the merge of the builder payload with any
agent suggestions has a defined `provenance` property whose value is
"base" or "agent" (hence within the allowed set "base" / "agent" /
"agent_heuristic" / "agent_llm"), and a defined boolean `enriched`
property — never undefined. -/
theorem merged_edges_provenance_enriched_defined (findings : List FindingRecord)
    (agentEdges : List GraphEdge) :
    ∀ r ∈ (mergeEdges (buildGraphPayload findings).edges agentEdges).edges,
      (getProp r.properties "provenance" = some (.str "base") ∨
        getProp r.properties "provenance" = some (.str "agent")) ∧
      (getProp r.properties "enriched" = some (.bool false) ∨
        getProp r.properties "enriched" = some (.bool true)) := by
  intro r hr
  have hr2 := foldl_addEdge_merged_mem agentEdges .agent _ r hr
  rcases hr2 with hbasepass | ⟨e, _, hp⟩
  · have hr3 := foldl_addEdge_merged_mem (buildGraphPayload findings).edges .base _ r hbasepass
    rcases hr3 with hempty | ⟨e, he, hp⟩
    · cases hempty
    · rw [hp, mergeEdgeProps_base_none e (buildGraphPayload_edges_props_none findings e he)]
      exact ⟨Or.inl rfl, Or.inl rfl⟩
  · rw [hp]
    have hm := mergeEdgeProps_agent_marks e
    exact ⟨Or.inr hm.1, Or.inr hm.2⟩

/-! ## C2 (amended): duplicates are dropped; the base record keeps base-only markers -/

/-- C2 as amended: when an agent edge's dedup key coincides with a base
edge's key, the agent occurrence is dropped wholesale — the surviving
record's property bag is exactly `provenance = "base"`, `enriched = false`
and carries no agent rationale or provenance markers (base edges carry no
property bag of their own, as the builder produces them). -/
theorem mergeEdges_first_writer_keeps_base_props (baseEdges agentEdges : List GraphEdge)
    (hbase : ∀ e ∈ baseEdges, e.properties = none) :
    ∀ r ∈ (mergeEdges baseEdges agentEdges).edges,
      (∃ b ∈ baseEdges, edgeKey b = mergedKey r) →
      r.properties = [("provenance", .str "base"), ("enriched", .bool false)] := by
  intro r hr hkey
  rcases hkey with ⟨b, hb, hbk⟩
  have hr2 := foldl_addEdge_merged_new_key agentEdges .agent _ r hr
  rcases hr2 with hbasepass | hfresh
  · have hr3 := foldl_addEdge_merged_mem baseEdges .base _ r hbasepass
    rcases hr3 with hempty | ⟨e, he, hp⟩
    · cases hempty
    · rw [hp, mergeEdgeProps_base_none e (hbase e he)]
  · exact absurd (hbk ▸ foldl_addEdge_keys_seen baseEdges .base _ b hb) hfresh

/-- C9 witness: the REPORTS record produced for the one-finding batch has
provenance "base" and a boolean enriched flag. -/
theorem merged_edges_provenance_enriched_defined_witness :
    (getProp reportsMergedRecord.properties "provenance" = some (.str "base") ∨
      getProp reportsMergedRecord.properties "provenance" = some (.str "agent")) ∧
    (getProp reportsMergedRecord.properties "enriched" = some (.bool false) ∨
      getProp reportsMergedRecord.properties "enriched" = some (.bool true)) :=
  merged_edges_provenance_enriched_defined [noIdFinding] [] reportsMergedRecord (by decide)

/-- C2 amended witness: the surviving record of the duplicate pair keeps
exactly the base markers. -/
theorem mergeEdges_first_writer_keeps_base_props_witness :
    dupSurvivorRecord.properties =
      [("provenance", .str "base"), ("enriched", .bool false)] :=
  mergeEdges_first_writer_keeps_base_props [dupBaseEdge] [dupAgentEdge]
    (by decide) dupSurvivorRecord (by decide) (by decide)

/-! ## C10 (amended): when the tool raises -/

/-- C10 as amended: with configuration absent (or empty), the tool returns
an empty list without raising; with configuration present it raises
exactly when the HTTP status is non-2xx, the response body is not JSON, or
the message content fails `JSON.parse` — a 2xx response whose content is
missing, or parses to JSON without an `edges` array, yields an empty edge
list without raising. -/
theorem llm_error_conditions (baseUrl apiKey : Option String) (resp : LlmResponse) :
    (¬(isTruthy baseUrl = true ∧ isTruthy apiKey = true) →
      llmToolRun baseUrl apiKey resp =
        .ok ("LiteLLM not configured; skipped LLM enrichment step.", [])) ∧
    (isTruthy baseUrl = true → isTruthy apiKey = true →
      ((∃ msg, llmToolRun baseUrl apiKey resp = .error msg) ↔
        (resp.ok = false ∨ (∃ m, resp.body = .invalidJson m) ∨
          (∃ m, resp.body = .content (.malformed m)))) ∧
      (resp.ok = true →
        (resp.body = .noContent ∨ resp.body = .content (.parsed none)) →
        ∃ s, llmToolRun baseUrl apiKey resp = .ok (s, []))) := by
  constructor
  · intro hcfg
    unfold llmToolRun
    cases hb : isTruthy baseUrl <;> cases ha : isTruthy apiKey <;> simp_all
  · intro hb ha
    unfold llmToolRun
    rw [if_neg (by simp [hb, ha])]
    cases hok : resp.ok
    · simp
    · rcases hbody : resp.body with m | _ | c
      · simp [hbody]
      · simp [hbody]
      · rcases c with m | eo
        · simp [hbody]
        · rcases eo with _ | l <;> simp [hbody]

/-- C10 amended witness: a configured tool facing a 502 raises. -/
theorem llm_error_conditions_witness :
    ∃ msg, llmToolRun (some "http://llm.local") (some "sk-key") llmBadGateway =
      .error msg :=
  (((llm_error_conditions (some "http://llm.local") (some "sk-key") llmBadGateway).2
    (by decide) (by decide)).1).mpr (Or.inl rfl)

/-! ## C5: runtime failure semantics -/

/-- C5: when a plan step fails — its tool is unregistered, or the tool's
run throws — a step record carrying the error message (and no data) is
appended and the reducer is not applied: the accumulated state passed to
the remaining steps (or returned on abort) is the pre-step state. The
remaining steps execute exactly when `continueOnError` is true; on abort
the pair (accumulated state, log ending with the failing record) is
returned as an ordinary result. -/
theorem runPlan_failure_semantics {ι γ σ δ : Type} (label : String)
    (tools : List (AgentTool ι γ σ δ)) (context : γ)
    (reducer : σ → AgentExecutedStep ι δ → σ) (times : Nat → Nat)
    (step : AgentPlanStep ι) (rest : List (AgentPlanStep ι)) (state : σ) (idx : Nat) :
    (lookupTool tools step.tool = none →
      (missingToolRecord label step idx times : AgentExecutedStep ι δ).error =
        some ("Tool " ++ step.tool ++ " not registered") ∧
      (missingToolRecord label step idx times : AgentExecutedStep ι δ).data = none ∧
      runPlan label tools context reducer times (step :: rest) state idx =
        (if step.continueOnError then
          ((runPlan label tools context reducer times rest state (idx + 1)).1,
            missingToolRecord label step idx times ::
              (runPlan label tools context reducer times rest state (idx + 1)).2)
        else (state, [missingToolRecord label step idx times]))) ∧
    (∀ tool msg, lookupTool tools step.tool = some tool →
      tool.run step.input context state = .error msg →
      (failedToolRecord label tool step idx times msg : AgentExecutedStep ι δ).error =
        some msg ∧
      (failedToolRecord label tool step idx times msg : AgentExecutedStep ι δ).data = none ∧
      runPlan label tools context reducer times (step :: rest) state idx =
        (if step.continueOnError then
          ((runPlan label tools context reducer times rest state (idx + 1)).1,
            failedToolRecord label tool step idx times msg ::
              (runPlan label tools context reducer times rest state (idx + 1)).2)
        else (state, [failedToolRecord label tool step idx times msg]))) := by
  constructor
  · intro h
    refine ⟨rfl, rfl, ?_⟩
    cases hc : step.continueOnError <;> simp [runPlan, h, hc]
  · intro tool msg h hrun
    refine ⟨rfl, rfl, ?_⟩
    cases hc : step.continueOnError <;> simp [runPlan, h, hrun, hc]

/-- C5 witness: a one-step plan whose tool throws, with the default
abort-on-failure, returns the initial state plus the single failing
record. -/
theorem runPlan_failure_semantics_witness :
    runPlan "graph-enrichment" [boomTool] () (fun s _ => s) id [boomStep] (0 : Nat) 0 =
      ((0 : Nat), [failedToolRecord "graph-enrichment" boomTool boomStep 0 id "kaboom"]) := by
  have h := (runPlan_failure_semantics "graph-enrichment" [boomTool] ()
    (fun s _ => s) id boomStep [] (0 : Nat) 0).2 boomTool "kaboom" rfl rfl
  simpa using h.2.2

/-! ## Node-map preservation lemmas (for C4) -/

theorem compositeId_ne_at (l₁ l₂ : String) (i : Nat)
    (h₁ : i < (l₁ ++ ":").data.length) (h₂ : i < (l₂ ++ ":").data.length)
    (h : (l₁ ++ ":").data.get? i ≠ (l₂ ++ ":").data.get? i) (a b : Option String) :
    compositeId l₁ a ≠ compositeId l₂ b :=
  string_append_ne_of_ne_at (l₁ ++ ":") (l₂ ++ ":") i h₁ h₂ h (jsStr a) (jsStr b)

theorem ensureNode_mem_self (m : NodeMap) (n : GraphNode)
    (h : m.find? (fun p => p.1 = compositeId n.label n.id) = none) :
    (compositeId n.label n.id, n) ∈ (ensureNode m n).1 := by
  simp only [ensureNode, h]
  exact List.mem_append_right _ (List.mem_singleton.mpr rfl)

theorem ensureNode_key_mem (m : NodeMap) (n : GraphNode) :
    ∀ p ∈ (ensureNode m n).1, p.1 ∈ m.map Prod.fst ∨ p.1 = compositeId n.label n.id := by
  simp only [ensureNode]
  split
  · intro p hp
    rcases List.mem_append.mp hp with h | h
    · exact Or.inl (List.mem_map_of_mem Prod.fst h)
    · rw [List.mem_singleton.mp h]
      exact Or.inr rfl
  · intro p hp
    rcases List.mem_map.mp hp with ⟨q, hq, hqp⟩
    by_cases hk : q.1 = compositeId n.label n.id
    · rw [← hqp, if_pos hk]
      exact Or.inr rfl
    · rw [← hqp, if_neg hk]
      exact Or.inl (List.mem_map_of_mem Prod.fst hq)

theorem ensureNode_preserves_pair {m : NodeMap} {kv : String × GraphNode}
    (h : kv ∈ m) (n : GraphNode) (hne : kv.1 ≠ compositeId n.label n.id) :
    kv ∈ (ensureNode m n).1 := by
  simp only [ensureNode]
  split
  · exact List.mem_append_left _ h
  · refine List.mem_map.mpr ⟨kv, h, ?_⟩
    rw [if_neg hne]

theorem condNodeEdges_preserves_pair (cond : Bool) (node : GraphNode)
    (mk : GraphNode → List GraphEdge) (prev : NodeMap × List GraphEdge)
    {kv : String × GraphNode} (h : kv ∈ prev.1)
    (hne : kv.1 ≠ compositeId node.label node.id) :
    kv ∈ (condNodeEdges cond node mk prev).1 := by
  unfold condNodeEdges
  split
  · exact ensureNode_preserves_pair h node hne
  · exact h

theorem condNodeEdges_forall_edges (cond : Bool) (node : GraphNode)
    (mk : GraphNode → List GraphEdge) (prev : NodeMap × List GraphEdge)
    (P : GraphEdge → Prop) (hprev : ∀ e ∈ prev.2, P e)
    (hmk : ∀ n, ∀ e ∈ mk n, P e) :
    ∀ e ∈ (condNodeEdges cond node mk prev).2, P e := by
  unfold condNodeEdges
  split
  · intro e he
    simp only at he
    rcases List.mem_append.mp he with h | h
    · exact hprev e h
    · exact hmk _ e h
  · exact hprev

/-! ## C4 counterexample: a Vulnerability node with undefined id -/

/-- C4 counterexample: a finding with no CVE, CWE or OWASP identifier
produces a Vulnerability node whose id is `undefined` (`none`), not a
non-empty placeholder — the claimed invariant "no node with an empty or
undefined id" fails (the ASSOCIATED_WITH edge is indeed absent). -/
theorem build_vulnerability_undefined_id_cex :
    (buildGraphPayload [noIdFinding]).nodes.map (fun n => (n.label, n.id)) =
      [("Finding", some "FG-1"), ("Scan", some "scan-9"), ("Scanner", some "zap"),
       ("Vulnerability", none), ("Asset", some "api_endpoint:unknown")] ∧
    (buildGraphPayload [noIdFinding]).edges.map (fun e => e.type) =
      ["REPORTS", "FOUND_ON", "GENERATED_BY", "PART_OF_SCAN", "SCANNED_BY", "AFFECTS"] := by
  constructor <;> rfl

/-! ## C4 (amended): no placeholder — the vulnerability id stays undefined -/

/-- C4 as amended: a finding lacking all three vulnerability identifiers
still yields exactly one Vulnerability node, but its id is `undefined`
(`none`) — `buildGraphPayload` has no placeholder fallback for it — and
when the finding has no package, no ASSOCIATED_WITH edge is produced. -/
theorem build_missing_ids_gives_undefined_vuln_node (f : FindingRecord)
    (h1 : f.vulnerability.cve_id = none) (h2 : f.vulnerability.cwe_id = none)
    (h3 : f.vulnerability.owasp_id = none) :
    (∃ n ∈ (buildGraphPayload [f]).nodes, n.label = "Vulnerability" ∧ n.id = none) ∧
    (f.package = none →
      ∀ e ∈ (buildGraphPayload [f]).edges, e.type ≠ "ASSOCIATED_WITH") := by
  have hvid : vulnerabilityIdOf f = none := by
    simp [vulnerabilityIdOf, h1, h2, h3]
  have hkeys1 := ensureNode_key_mem ([] : NodeMap) (findingNodeOf f)
  have hkeys2 := ensureNode_key_mem
    (ensureNode ([] : NodeMap) (findingNodeOf f)).1 (scanNodeOf f)
  have hkeys3 := ensureNode_key_mem
    (ensureNode (ensureNode ([] : NodeMap) (findingNodeOf f)).1 (scanNodeOf f)).1
    (scannerNodeOf f)
  have hfind :
      ((ensureNode (ensureNode (ensureNode ([] : NodeMap) (findingNodeOf f)).1
          (scanNodeOf f)).1 (scannerNodeOf f)).1).find?
        (fun p => p.1 =
          compositeId (vulnerabilityNodeOf f).label (vulnerabilityNodeOf f).id) = none := by
    rw [List.find?_eq_none]
    intro p hp
    simp only [decide_eq_true_eq]
    rcases hkeys3 p hp with hk | hk
    · rcases List.mem_map.mp hk with ⟨q, hq, hq1⟩
      rcases hkeys2 q hq with hk2 | hk2
      · rcases List.mem_map.mp hk2 with ⟨q2, hq2, hq21⟩
        rcases hkeys1 q2 hq2 with hk1 | hk1
        · simp at hk1
        · rw [← hq1, ← hq21, hk1]
          exact compositeId_ne_at "Finding" "Vulnerability" 0
            (by decide) (by decide) (by decide) _ _
      · rw [← hq1, hk2]
        exact compositeId_ne_at "Scan" "Vulnerability" 0
          (by decide) (by decide) (by decide) _ _
    · rw [hk]
      exact compositeId_ne_at "Scanner" "Vulnerability" 0
        (by decide) (by decide) (by decide) _ _
  have hmemV := ensureNode_mem_self _ _ hfind
  constructor
  · rcases hp : f.package with _ | pkg <;>
      simp only [buildGraphPayload, List.foldl, buildFinding, hp]
    · refine ⟨vulnerabilityNodeOf f, List.mem_map.mpr
        ⟨(compositeId (vulnerabilityNodeOf f).label (vulnerabilityNodeOf f).id,
          vulnerabilityNodeOf f), ?_, rfl⟩, rfl, hvid⟩
      exact condNodeEdges_preserves_pair _ _ _ _
        (condNodeEdges_preserves_pair _ _ _ _
          (condNodeEdges_preserves_pair _ _ _ _
            (condNodeEdges_preserves_pair _ _ _ _
              (condNodeEdges_preserves_pair _ _ _ _
                (ensureNode_preserves_pair hmemV _
                  (compositeId_ne_at "Vulnerability" "Asset" 0
                    (by decide) (by decide) (by decide) _ _))
                (compositeId_ne_at "Vulnerability" "Service" 0
                  (by decide) (by decide) (by decide) _ _))
              (compositeId_ne_at "Vulnerability" "Cluster" 0
                (by decide) (by decide) (by decide) _ _))
            (compositeId_ne_at "Vulnerability" "Registry" 0
              (by decide) (by decide) (by decide) _ _))
          (compositeId_ne_at "Vulnerability" "Repository" 0
            (by decide) (by decide) (by decide) _ _))
        (compositeId_ne_at "Vulnerability" "SourceFile" 0
          (by decide) (by decide) (by decide) _ _)
    · refine ⟨vulnerabilityNodeOf f, List.mem_map.mpr
        ⟨(compositeId (vulnerabilityNodeOf f).label (vulnerabilityNodeOf f).id,
          vulnerabilityNodeOf f), ?_, rfl⟩, rfl, hvid⟩
      exact condNodeEdges_preserves_pair _ _ _ _
        (condNodeEdges_preserves_pair _ _ _ _
          (condNodeEdges_preserves_pair _ _ _ _
            (condNodeEdges_preserves_pair _ _ _ _
              (condNodeEdges_preserves_pair _ _ _ _
                (condNodeEdges_preserves_pair _ _ _ _
                  (ensureNode_preserves_pair hmemV _
                    (compositeId_ne_at "Vulnerability" "Asset" 0
                      (by decide) (by decide) (by decide) _ _))
                  (compositeId_ne_at "Vulnerability" "Service" 0
                    (by decide) (by decide) (by decide) _ _))
                (compositeId_ne_at "Vulnerability" "Cluster" 0
                  (by decide) (by decide) (by decide) _ _))
              (compositeId_ne_at "Vulnerability" "Registry" 0
                (by decide) (by decide) (by decide) _ _))
            (compositeId_ne_at "Vulnerability" "Repository" 0
              (by decide) (by decide) (by decide) _ _))
          (compositeId_ne_at "Vulnerability" "SourceFile" 0
            (by decide) (by decide) (by decide) _ _))
        (compositeId_ne_at "Vulnerability" "Package" 0
          (by decide) (by decide) (by decide) _ _)
  · intro hpkg
    simp only [buildGraphPayload, List.foldl, buildFinding, hpkg]
    exact condNodeEdges_forall_edges _ _ _ _ _
      (condNodeEdges_forall_edges _ _ _ _ _
        (condNodeEdges_forall_edges _ _ _ _ _
          (condNodeEdges_forall_edges _ _ _ _ _
            (condNodeEdges_forall_edges _ _ _ _ _
              (by
                intro e he
                simp only [List.nil_append, List.mem_cons, List.not_mem_nil,
                  or_false] at he
                rcases he with rfl | rfl | rfl | rfl | rfl | rfl <;> simp [createEdge])
              (by
                intro n e he
                simp only [List.mem_cons, List.not_mem_nil, or_false] at he
                rcases he with rfl | rfl <;> simp [createEdge]))
            (by
              intro n e he
              simp only [List.mem_cons, List.not_mem_nil, or_false] at he
              rcases he with rfl
              simp [createEdge]))
          (by
            intro n e he
            simp only [List.mem_cons, List.not_mem_nil, or_false] at he
            rcases he with rfl
            simp [createEdge]))
        (by
          intro n e he
          simp only [List.mem_cons, List.not_mem_nil, or_false] at he
          rcases he with rfl
          simp [createEdge]))
      (by
        intro n e he
        simp only [List.mem_cons, List.not_mem_nil, or_false] at he
        rcases he with rfl
        simp [createEdge])

/-- C4 amended witness: the concrete identifier-free finding. -/
theorem build_missing_ids_gives_undefined_vuln_node_witness :
    (∃ n ∈ (buildGraphPayload [noIdFinding]).nodes,
      n.label = "Vulnerability" ∧ n.id = none) ∧
    (noIdFinding.package = none →
      ∀ e ∈ (buildGraphPayload [noIdFinding]).edges, e.type ≠ "ASSOCIATED_WITH") :=
  build_missing_ids_gives_undefined_vuln_node noIdFinding rfl rfl rfl

/-! ## Stable-sort lemmas (for C6) -/

theorem insertByTime_perm (getTime : String → Int) (f : FindingRecord)
    (l : List FindingRecord) : (insertByTime getTime f l).Perm (f :: l) := by
  induction l with
  | nil => exact List.Perm.refl _
  | cons g rest ih =>
    unfold insertByTime
    split
    · exact (ih.cons g).trans (List.Perm.swap f g rest)
    · exact List.Perm.refl _

theorem sortByTime_perm (getTime : String → Int) (l : List FindingRecord) :
    (sortByTime getTime l).Perm l := by
  induction l with
  | nil => exact List.Perm.refl _
  | cons f rest ih =>
    exact (insertByTime_perm getTime f (sortByTime getTime rest)).trans (ih.cons f)

theorem insertByTime_head (getTime : String → Int) (f : FindingRecord)
    (l : List FindingRecord) :
    (insertByTime getTime f l).head? = some f ∨ (insertByTime getTime f l).head? = l.head? := by
  cases l with
  | nil => exact Or.inl rfl
  | cons g rest =>
    unfold insertByTime
    split
    · exact Or.inr rfl
    · exact Or.inl rfl

theorem insertByTime_chain' (getTime : String → Int) (f : FindingRecord)
    (l : List FindingRecord)
    (h : List.Chain' (fun a b => getTime a.timestamp ≤ getTime b.timestamp) l) :
    List.Chain' (fun a b => getTime a.timestamp ≤ getTime b.timestamp)
      (insertByTime getTime f l) := by
  induction l with
  | nil => exact List.chain'_singleton f
  | cons g rest ih =>
    rcases List.chain'_cons'.mp h with ⟨hg, hrest⟩
    unfold insertByTime
    split
    · next hlt =>
      refine List.chain'_cons'.mpr ⟨?_, ih hrest⟩
      intro y hy
      rcases insertByTime_head getTime f rest with hh | hh
      · rw [hh] at hy
        rw [Option.mem_some_iff.mp hy.symm] at *
        · exact le_of_lt hlt
      · rw [hh] at hy
        exact hg y hy
    · next hge =>
      refine List.chain'_cons'.mpr ⟨?_, h⟩
      intro y hy
      rw [Option.mem_some_iff.mp hy.symm]
      exact le_of_not_lt hge

theorem sortByTime_chain' (getTime : String → Int) (l : List FindingRecord) :
    List.Chain' (fun a b => getTime a.timestamp ≤ getTime b.timestamp)
      (sortByTime getTime l) := by
  induction l with
  | nil => exact List.chain'_nil
  | cons f rest ih => exact insertByTime_chain' getTime f _ ih

/-! ## C6: the CO_OCCURS rule builds a per-scan time-sorted chain -/

/-- C6: the CO_OCCURS suggestions are exactly, per scan-id group (grouped
in encounter order), the adjacent pairs of the group sorted by timestamp
ascending (a chain of group-size − 1 edges, not a clique), each edge
carrying the rounded minute delta; and the two-finding scenario sharing
`scan-1` and CVE-2024-35689 ten minutes apart yields exactly one
SHARED_CVE edge and one CO_OCCURS edge with `delta_minutes = 10`. -/
theorem heuristic_co_occurs_chain (getTime : String → Int)
    (findings : List FindingRecord) :
    ((heuristicSuggestions getTime findings).filter
        (fun e => e.type = "CO_OCCURS") =
      (groupByKeyOpt scanKey findings).flatMap
        (fun g =>
          if g.2.length < 2 then []
          else
            ((sortByTime getTime g.2).zip (sortByTime getTime g.2).tail).map
              (fun p => coOccursEdge getTime g.1 p.1 p.2))) ∧
    (∀ g ∈ groupByKeyOpt scanKey findings,
      (sortByTime getTime g.2).Perm g.2 ∧
      List.Chain' (fun a b => getTime a.timestamp ≤ getTime b.timestamp)
        (sortByTime getTime g.2)) ∧
    (((heuristicSuggestions getTime findings).filter
        (fun e => e.type = "CO_OCCURS")).length =
      ((groupByKeyOpt scanKey findings).map (fun g => g.2.length - 1)).sum) ∧
    (getTime "2025-01-01T10:10:00Z" = getTime "2025-01-01T10:00:00Z" + 600000 →
      heuristicSuggestions getTime [scenFinding1, scenFinding2] =
        [sharedCveEdge "CVE-2024-35689" scenFinding1 scenFinding2,
         coOccursEdge getTime "scan-1" scenFinding1 scenFinding2] ∧
      (coOccursEdge getTime "scan-1" scenFinding1 scenFinding2).properties =
        some [("scan_id", .str "scan-1"), ("delta_minutes", .int 10),
              ("agent_source", .str "heuristic"),
              ("provenance", .str "agent_heuristic")]) := by
  have hfilter :
      (heuristicSuggestions getTime findings).filter
        (fun e => e.type = "CO_OCCURS") =
      (groupByKeyOpt scanKey findings).flatMap
        (fun g =>
          if g.2.length < 2 then []
          else
            ((sortByTime getTime g.2).zip (sortByTime getTime g.2).tail).map
              (fun p => coOccursEdge getTime g.1 p.1 p.2)) := by
    simp only [heuristicSuggestions]
    rw [List.filter_append, List.filter_append]
    have h1 : ((groupByKeyOpt serviceKey findings).flatMap
        (fun g =>
          if g.2.length < 2 then []
          else (pairsOf g.2).map (fun p => sharedServiceEdge g.1 p.1 p.2))).filter
            (fun e => e.type = "CO_OCCURS") = [] := by
      rw [List.filter_eq_nil]
      intro e he
      rcases List.mem_flatMap.mp he with ⟨g, hg, hge⟩
      by_cases hlen : g.2.length < 2
      · rw [if_pos hlen] at hge
        cases hge
      · rw [if_neg hlen] at hge
        rcases List.mem_map.mp hge with ⟨p, hp, rfl⟩
        simp [sharedServiceEdge]
    have h2 : ((groupByKeyOpt cveKey findings).flatMap
        (fun g =>
          if g.2.length < 2 then []
          else (pairsOf g.2).map (fun p => sharedCveEdge g.1 p.1 p.2))).filter
            (fun e => e.type = "CO_OCCURS") = [] := by
      rw [List.filter_eq_nil]
      intro e he
      rcases List.mem_flatMap.mp he with ⟨g, hg, hge⟩
      by_cases hlen : g.2.length < 2
      · rw [if_pos hlen] at hge
        cases hge
      · rw [if_neg hlen] at hge
        rcases List.mem_map.mp hge with ⟨p, hp, rfl⟩
        simp [sharedCveEdge]
    have h3 : ((groupByKeyOpt scanKey findings).flatMap
        (fun g =>
          if g.2.length < 2 then []
          else
            ((sortByTime getTime g.2).zip (sortByTime getTime g.2).tail).map
              (fun p => coOccursEdge getTime g.1 p.1 p.2))).filter
            (fun e => e.type = "CO_OCCURS") =
          (groupByKeyOpt scanKey findings).flatMap
            (fun g =>
              if g.2.length < 2 then []
              else
                ((sortByTime getTime g.2).zip (sortByTime getTime g.2).tail).map
                  (fun p => coOccursEdge getTime g.1 p.1 p.2)) := by
      rw [List.filter_eq_self]
      intro e he
      rcases List.mem_flatMap.mp he with ⟨g, hg, hge⟩
      by_cases hlen : g.2.length < 2
      · rw [if_pos hlen] at hge
        cases hge
      · rw [if_neg hlen] at hge
        rcases List.mem_map.mp hge with ⟨p, hp, rfl⟩
        simp [coOccursEdge]
    rw [h1, h2, h3]
    rfl
  refine ⟨hfilter, ?_, ?_, ?_⟩
  · intro g _
    exact ⟨sortByTime_perm getTime g.2, sortByTime_chain' getTime g.2⟩
  · rw [hfilter, List.length_flatMap]
    congr 1
    apply List.map_congr_left
    intro g _
    by_cases hlen : g.2.length < 2
    · simp only [Function.comp_apply, if_pos hlen, List.length_nil]
      omega
    · simp only [Function.comp_apply, if_neg hlen, List.length_map, List.length_zip,
        List.length_tail]
      have hp := (sortByTime_perm getTime g.2).length_eq
      omega
  · intro h10
    have hlt : ¬ (getTime scenFinding2.timestamp < getTime scenFinding1.timestamp) := by
      show ¬ (getTime "2025-01-01T10:10:00Z" < getTime "2025-01-01T10:00:00Z")
      rw [h10]
      omega
    constructor
    · have hgs : groupByKeyOpt serviceKey [scenFinding1, scenFinding2] = [] := rfl
      have hgc : groupByKeyOpt cveKey [scenFinding1, scenFinding2] =
          [("CVE-2024-35689", [scenFinding1, scenFinding2])] := rfl
      have hgscan : groupByKeyOpt scanKey [scenFinding1, scenFinding2] =
          [("scan-1", [scenFinding1, scenFinding2])] := rfl
      have hsort : sortByTime getTime [scenFinding1, scenFinding2] =
          [scenFinding1, scenFinding2] := by
        simp only [sortByTime, insertByTime]
        rw [if_neg hlt]
      simp only [heuristicSuggestions, hgs, hgc, hgscan]
      simp only [List.flatMap_cons, List.flatMap_nil, List.append_nil,
        List.nil_append, List.length_cons, List.length_nil, pairsOf,
        List.map_cons, List.map_nil, hsort, List.zip_cons_cons,
        List.zip_nil_right, List.tail_cons]
      norm_num
    · have hdelta : getTime scenFinding2.timestamp - getTime scenFinding1.timestamp =
          600000 := by
        show getTime "2025-01-01T10:10:00Z" - getTime "2025-01-01T10:00:00Z" = 600000
        rw [h10]
        omega
      simp only [coOccursEdge, hdelta]
      norm_num [roundDeltaMinutes]
      decide

/-- C6 witness: the concrete clock placing the findings ten minutes
apart. -/
theorem heuristic_co_occurs_chain_witness :
    heuristicSuggestions scenGetTime [scenFinding1, scenFinding2] =
      [sharedCveEdge "CVE-2024-35689" scenFinding1 scenFinding2,
       coOccursEdge scenGetTime "scan-1" scenFinding1 scenFinding2] ∧
    (coOccursEdge scenGetTime "scan-1" scenFinding1 scenFinding2).properties =
      some [("scan_id", .str "scan-1"), ("delta_minutes", .int 10),
            ("agent_source", .str "heuristic"),
            ("provenance", .str "agent_heuristic")] :=
  (heuristic_co_occurs_chain scenGetTime [scenFinding1, scenFinding2]).2.2.2 (by decide)

end VulnGraph
